import Mathlib

/-!
Verification of the configuration manager of `testzeus-hercules`
(`testzeus_hercules/config.py`), shallowly embedded in Lean 4.

A Python value stored in the configuration dictionary is either a string or
Python `None`; we model it as `Option String` (`none` is Python `None`).
A Python dict is modelled as an insertion-ordered association list in which
a key occurs at most once; lookups return the first matching entry,
assignment replaces in place, and fresh keys are appended, matching CPython
dict semantics.
-/

-- Definitions: the shallow embedding of testzeus_hercules/config.py ----------

/-- A Python value held by the config dict: a string or Python `None`. -/
abbrev Val := Option String

/-- The configuration dictionary (`self._config`). -/
abbrev Config := List (String × Val)

/-- The process environment (`os.environ`): string-to-string. -/
abbrev Env := List (String × String)

/-- Python truthiness of an optional string: `None` and `""` are falsy. -/
def valTruthy : Val → Bool
  | none => false
  | some s => s ≠ ""

/-- Dictionary lookup: `some v` when the key is present with stored value `v`,
`none` when the key is absent.  (`k in d` is `(lookupC d k).isSome`.) -/
def lookupC : Config → String → Option Val
  | [], _ => none
  | (k, v) :: c, j => if k = j then some v else lookupC c j

/-- Python `d.get(k)`: absent keys give Python `None`. -/
def pyGet (c : Config) (k : String) : Val :=
  match lookupC c k with
  | some v => v
  | none => none

/-- Python `d.get(k, default)`. -/
def pyGetD (c : Config) (k : String) (d : Val) : Val :=
  match lookupC c k with
  | some v => v
  | none => d

/-- Python `d[k] = v`: replace the first (unique) occurrence in place,
or append the fresh key at the end. -/
def setC : Config → String → Val → Config
  | [], k, v => [(k, v)]
  | (k', v') :: c, k, v => if k' = k then (k', v) :: c else (k', v') :: setC c k v

/-- Python `d.setdefault(k, v)`: insert only when the key is absent. -/
def setdC (c : Config) (k : String) (v : Val) : Config :=
  match lookupC c k with
  | some _ => c
  | none => c ++ [(k, v)]

/-- Python `d.update(d2)`: assign every entry of `d2` into `d` in order. -/
def updateC (c : Config) (d : Config) : Config :=
  d.foldl (fun acc kv => setC acc kv.1 kv.2) c

/-- Value of the last entry of a key-value list holding a given key. -/
def lookupLastC : Config → String → Option Val
  | [], _ => none
  | (k, v) :: ps, j =>
    match lookupLastC ps j with
    | some w => some w
    | none => if k = j then some v else none

/-- Environment lookup (`os.environ.get`). -/
def envLookup : Env → String → Option String
  | [], _ => none
  | (k, v) :: e, j => if k = j then some v else envLookup e j

/-- Environment assignment (`os.environ[k] = v`), modelled lookup-faithfully
by prepending. -/
def setE (e : Env) (k v : String) : Env := (k, v) :: e

/-- Apply a list of environment writes in order (later writes win). -/
def applyWrites (ps : List (String × String)) (e : Env) : Env :=
  ps.foldl (fun acc kv => setE acc kv.1 kv.2) e

/-- Value of the last write to a key in a write list. -/
def lookupLastE : List (String × String) → String → Option String
  | [], _ => none
  | (k, v) :: ps, j =>
    match lookupLastE ps j with
    | some w => some w
    | none => if k = j then some v else none

/-- The six recognized command-line flags of `_parse_arguments`
(`argparse` values: `none` when the flag is not given). -/
structure Args where
  input_file : Option String
  output_path : Option String
  test_data_path : Option String
  project_base : Option String
  llm_model : Option String
  llm_model_api_key : Option String
deriving DecidableEq, Repr

/-- Python truthiness of an argparse value (`if args.input_file:`). -/
def optTruthy : Option String → Bool
  | none => false
  | some s => s ≠ ""

/-- `_parse_arguments`: each truthy flag is written into the process
environment under its canonical key, in source order. -/
def applyArgs (a : Args) (e : Env) : Env :=
  let e := if optTruthy a.input_file then setE e "INPUT_GHERKIN_FILE_PATH" (a.input_file.getD "") else e
  let e := if optTruthy a.output_path then setE e "JUNIT_XML_BASE_PATH" (a.output_path.getD "") else e
  let e := if optTruthy a.test_data_path then setE e "TEST_DATA_PATH" (a.test_data_path.getD "") else e
  let e := if optTruthy a.project_base then setE e "PROJECT_SOURCE_ROOT" (a.project_base.getD "") else e
  let e := if optTruthy a.llm_model then setE e "LLM_MODEL_NAME" (a.llm_model.getD "") else e
  let e := if optTruthy a.llm_model_api_key then setE e "LLM_MODEL_API_KEY" (a.llm_model_api_key.getD "") else e
  e

/-- The allow-list of environment variables merged by `_merge_from_env`. -/
def relevantKeys : List String :=
  ["MODE", "PROJECT_SOURCE_ROOT", "INPUT_GHERKIN_FILE_PATH", "JUNIT_XML_BASE_PATH",
   "TEST_DATA_PATH", "BROWSER_TYPE", "HEADLESS", "RECORD_VIDEO", "TAKE_SCREENSHOTS",
   "CAPTURE_NETWORK", "CDP_ENDPOINT_URL", "LLM_MODEL_NAME", "LLM_MODEL_API_KEY",
   "AGENTS_LLM_CONFIG_FILE", "AGENTS_LLM_CONFIG_FILE_REF_KEY", "HF_HOME",
   "TOKENIZERS_PARALLELISM", "DONT_CLOSE_BROWSER", "TOKEN_VERBOSE", "BROWSER_RESOLUTION",
   "RUN_DEVICE", "LOCALE", "TIMEZONE", "GEOLOCATION", "COLOR_SCHEME", "LOAD_EXTRA_TOOLS",
   "GEO_PROVIDER", "GEO_API_KEY"]

/-- `_merge_from_env` over an explicit key list: any allow-listed key present
in the environment overwrites the corresponding config entry. -/
def mergeKeys (ks : List String) (c : Config) (e : Env) : Config :=
  ks.foldl
    (fun acc k =>
      match envLookup e k with
      | some v => setC acc k (some v)
      | none => acc)
    c

/-- Python `str.lower()` character-wise (ASCII, as relevant here). -/
def strLower (s : String) : String :=
  String.mk (s.data.map Char.toLower)

/-- `IS_TEST_ENV` guard: `os.environ.get("IS_TEST_ENV", "false").lower() == "true"`. -/
def isTestEnv (e : Env) : Bool :=
  strLower ((envLookup e "IS_TEST_ENV").getD "false") == "true"

/-- `load_dotenv(override=True)` modelled as an opaque list of environment
writes `d` (the parsed `.env` file), applied only outside test environments. -/
def applyDotenvIf (d : List (String × String)) (e : Env) : Env :=
  if isTestEnv e then e else applyWrites d e

/-- The environment as it stands after steps 1-2 of `__init__`
(dotenv load, then CLI writes) when the environment is not ignored. -/
def prepEnv (a : Args) (d : List (String × String)) (e : Env) : Env :=
  applyArgs a (applyDotenvIf d e)

/-- The environment after construction: unchanged when `ignore_env`. -/
def envAfter (a : Args) (d : List (String × String)) (e : Env) (ig : Bool) : Env :=
  if ig then e else prepEnv a d e

/-- The working mapping after steps 1-3 of `__init__`: the copied base dict,
with the environment merged in unless `ignore_env`. -/
def mergedConfig (base : Config) (a : Args) (d : List (String × String)) (e : Env)
    (ig : Bool) : Config :=
  if ig then base else mergeKeys relevantKeys base (prepEnv a d e)

/-- `_check_llm_config`: `.error 1` models `exit(1)`. -/
def check_llm_config (c : Config) : Except Nat Unit :=
  let llm_model_name := pyGet c "LLM_MODEL_NAME"
  let llm_model_api_key := pyGet c "LLM_MODEL_API_KEY"
  let agents_llm_config_file := pyGet c "AGENTS_LLM_CONFIG_FILE"
  let agents_llm_config_file_ref_key := pyGet c "AGENTS_LLM_CONFIG_FILE_REF_KEY"
  if (valTruthy llm_model_name && valTruthy llm_model_api_key)
      && (valTruthy agents_llm_config_file || valTruthy agents_llm_config_file_ref_key) then
    .error 1
  else if (!valTruthy llm_model_name || !valTruthy llm_model_api_key)
      && (!valTruthy agents_llm_config_file || !valTruthy agents_llm_config_file_ref_key) then
    .error 1
  else
    .ok ()

/-- Python-level error kinds that the embedded operations can raise. -/
inductive PyErr
  | keyError
  | typeError
  | fileExists
  | valueError
deriving DecidableEq, Repr

/-- `os.path.join(a, b)` for POSIX paths (two arguments): an absolute second
component wins; otherwise concatenate, inserting `"/"` unless `a` is empty or
already ends with a separator.  `startswith`/`endswith` are expressed on the
character list of the string. -/
def pyJoin (a b : String) : String :=
  if b.data.head? = some '/' then b
  else if a = "" ∨ a.data.getLast? = some '/' then a ++ b
  else a ++ "/" ++ b

/-- `self._config.get("PROJECT_SOURCE_ROOT", "./opt")` as evaluated by
`_finalize_defaults` (a `Val`: it is Python `None` when the key is present
with value `None`, in which case the subsequent `os.path.join` raises). -/
def rootVal (c : Config) : Val :=
  pyGetD c "PROJECT_SOURCE_ROOT" (some "./opt")

/-- The `setdefault` calls of `_finalize_defaults` that follow the
`PROJECT_SOURCE_ROOT` assignment, in source order (the two `if key not in
config` assignments for `HF_HOME` and `TOKENIZERS_PARALLELISM` have exactly
`setdefault` semantics). -/
def defaultPairs (root : String) : List (String × Val) :=
  [("INPUT_GHERKIN_FILE_PATH", some (pyJoin root "input/test.feature")),
   ("JUNIT_XML_BASE_PATH", some (pyJoin root "output")),
   ("TEST_DATA_PATH", some (pyJoin root "test_data")),
   ("SCREEN_SHOT_PATH", some (pyJoin root "proofs")),
   ("PROJECT_TEMP_PATH", some (pyJoin root "temp")),
   ("SOURCE_LOG_FOLDER_PATH", some (pyJoin root "log_files")),
   ("TMP_GHERKIN_PATH", some (pyJoin root "gherkin_files")),
   ("HF_HOME", some "./.cache"),
   ("TOKENIZERS_PARALLELISM", some "false"),
   ("TOKEN_VERBOSE", some "false"),
   ("BROWSER_RESOLUTION", some "1920,1080"),
   ("RUN_DEVICE", some "desktop"),
   ("LOAD_EXTRA_TOOLS", some "false"),
   ("LOCALE", some "en-US"),
   ("TIMEZONE", none),
   ("GEOLOCATION", none),
   ("COLOR_SCHEME", some "light"),
   ("HEADLESS", some "true"),
   ("RECORD_VIDEO", some "true"),
   ("TAKE_SCREENSHOTS", some "true"),
   ("BROWSER_TYPE", some "chromium"),
   ("CAPTURE_NETWORK", some "true"),
   ("DONT_CLOSE_BROWSER", some "false"),
   ("GEO_PROVIDER", none),
   ("GEO_API_KEY", none)]

/-- `_finalize_defaults`.  When the resolved project source root is Python
`None`, the first `os.path.join(project_source_root, ...)` raises a
`TypeError`; otherwise every missing key is filled with its default. -/
def finalizeDefaults (c : Config) : Except PyErr Config :=
  let c1 := setdC (setdC c "MODE" (some "prod")) "DEFAULT_TEST_ID" (some "default")
  match rootVal c1 with
  | none => .error .typeError
  | some root =>
    .ok ((defaultPairs root).foldl (fun acc kv => setdC acc kv.1 kv.2)
      (setC c1 "PROJECT_SOURCE_ROOT" (some root)))

/-- A constructed `BaseConfigManager`: the resolved mapping plus the mutable
default test identifier (`self._default_test_id`, a Python value). -/
structure ConfigManager where
  _config : Config
  _default_test_id : Val
deriving DecidableEq, Repr

/-- Outcome of running `BaseConfigManager.__init__`: a constructed manager,
process termination with an exit code, or an uncaught `TypeError`. -/
inductive CResult
  | ok (m : ConfigManager)
  | exit (code : Nat)
  | typeError
deriving DecidableEq, Repr

/-- `BaseConfigManager.__init__(config_dict, ignore_env)` run against process
environment `e`, command-line flags `a` and `.env` file contents `d`; returns
the construction outcome together with the environment as mutated by the
dotenv load and the CLI writes. -/
def construct (base : Config) (a : Args) (d : List (String × String)) (e : Env)
    (ig : Bool) : CResult × Env :=
  let e2 := envAfter a d e ig
  let c := mergedConfig base a d e ig
  match check_llm_config c with
  | .error n => (.exit n, e2)
  | .ok _ =>
    match finalizeDefaults c with
    | .error _ => (.typeError, e2)
    | .ok f => (.ok ⟨f, pyGetD f "DEFAULT_TEST_ID" (some "default")⟩, e2)

/-- The environment write `_parse_arguments` performs for key `j`, if any
(the written string is the flag value; falsy flags write nothing). -/
def argWrite (a : Args) (j : String) : Option String :=
  if "LLM_MODEL_API_KEY" = j ∧ optTruthy a.llm_model_api_key then some (a.llm_model_api_key.getD "")
  else if "LLM_MODEL_NAME" = j ∧ optTruthy a.llm_model then some (a.llm_model.getD "")
  else if "PROJECT_SOURCE_ROOT" = j ∧ optTruthy a.project_base then some (a.project_base.getD "")
  else if "TEST_DATA_PATH" = j ∧ optTruthy a.test_data_path then some (a.test_data_path.getD "")
  else if "JUNIT_XML_BASE_PATH" = j ∧ optTruthy a.output_path then some (a.output_path.getD "")
  else if "INPUT_GHERKIN_FILE_PATH" = j ∧ optTruthy a.input_file then some (a.input_file.getD "")
  else none

/-- First entry of a default list holding a given key. -/
def lookupFirst : List (String × Val) → String → Option Val
  | [], _ => none
  | (k, v) :: ps, j => if k = j then some v else lookupFirst ps j

/-- The default `_finalize_defaults` assigns to an absent key `j` when the
resolved project source root is `root` (`none`: `j` is never defaulted). -/
def finDefault (j : String) (root : String) : Option Val :=
  if j = "MODE" then some (some "prod")
  else if j = "DEFAULT_TEST_ID" then some (some "default")
  else if j = "PROJECT_SOURCE_ROOT" then some (some root)
  else lookupFirst (defaultPairs root) j

/-- `set_default_test_id`: stores the identifier in the field and writes it
into the resolved mapping under `DEFAULT_TEST_ID`. -/
def set_default_test_id (m : ConfigManager) (test_id : String) : ConfigManager :=
  ⟨setC m._config "DEFAULT_TEST_ID" (some test_id), some test_id⟩

/-- `reset_default_test_id` delegates to `set_default_test_id("default")`. -/
def reset_default_test_id (m : ConfigManager) : ConfigManager :=
  set_default_test_id m "default"

/-- `get_default_test_id`. -/
def get_default_test_id (m : ConfigManager) : Val :=
  m._default_test_id

/-- `get_cdp_config`: the one-entry dict when `CDP_ENDPOINT_URL` is truthy,
else Python `None`. -/
def get_cdp_config (m : ConfigManager) : Option Config :=
  let cdp_endpoint_url := pyGet m._config "CDP_ENDPOINT_URL"
  if valTruthy cdp_endpoint_url then some [("endpoint_url", cdp_endpoint_url)]
  else none

/-- State of `SingletonConfigManager`: the class attribute `_instance`
together with the process environment. -/
structure RegState where
  reg : Option ConfigManager
  env : Env
deriving DecidableEq, Repr

/-- `SingletonConfigManager.instance(config_dict, ignore_env)`: construct on
first use (from `config_dict or {}`), else patch the existing instance by
`dict.update` when a mapping is supplied. -/
def instanceOp (s : RegState) (config_dict : Option Config) (ig : Bool)
    (a : Args) (d : List (String × String)) : CResult × RegState :=
  match s.reg with
  | none =>
    let base := match config_dict with
      | some cd => cd
      | none => []
    match construct base a d s.env ig with
    | (.ok m, e2) => (.ok m, ⟨some m, e2⟩)
    | (r, e2) => (r, ⟨none, e2⟩)
  | some m =>
    match config_dict with
    | some cd =>
      let m2 : ConfigManager := ⟨updateC m._config cd, m._default_test_id⟩
      (.ok m2, ⟨some m2, s.env⟩)
    | none => (.ok m, s)

/-- `SingletonConfigManager.reset_instance`. -/
def reset_instance (s : RegState) : RegState :=
  ⟨none, s.env⟩

/-- Split a character list at `'/'` separators (the groups between slashes;
always returns at least one group). -/
def splitSlash : List Char → List (List Char)
  | [] => [[]]
  | c :: cs =>
    match splitSlash cs with
    | g :: gs => if c = '/' then [] :: g :: gs else (c :: g) :: gs
    | [] => [[]]

/-- Joining two slash-split decompositions across a concatenation point. -/
def combine : List (List Char) → List (List Char) → List (List Char)
  | [], hs => hs
  | g :: gs, hs =>
    match gs with
    | [] =>
      match hs with
      | [] => [g]
      | h :: hs2 => (g ++ h) :: hs2
    | g2 :: gs2 => g :: combine (g2 :: gs2) hs

/-- The normalized component list of a POSIX path: the non-empty groups
between slashes, with a leading `""` marker for absolute paths.  Two path
strings denote the same directory exactly when their components agree
(trailing and doubled separators do not change the denoted directory). -/
def comps (p : String) : List String :=
  let core := ((splitSlash p.data).map (fun g => String.mk g)).filter (fun s => s ≠ "")
  if p.data.head? = some '/' then "" :: core else core

/-- The filesystem: the set (list) of existing directories, as components. -/
abbrev FS := List (List String)

/-- The non-empty prefixes of a component list: all the directories
`os.makedirs` guarantees to exist after creating the full path. -/
def prefixesNE : List String → List (List String)
  | [] => []
  | x :: xs => [x] :: (prefixesNE xs).map (fun l => x :: l)

/-- `os.makedirs(p)` (no `exist_ok`): fails on an empty path or when the leaf
already exists; otherwise creates the leaf and any missing ancestors. -/
def makedirs (p : String) (fs : FS) : Except PyErr FS :=
  let cp := comps p
  if cp = [] then .error .valueError
  else if cp ∈ fs then .error .fileExists
  else .ok (prefixesNE cp ++ fs)

/-- `os.path.exists` on the modelled filesystem. -/
def fsExists (p : String) (fs : FS) : Prop := comps p ∈ fs

instance (p : String) (fs : FS) : Decidable (fsExists p fs) := by
  unfold fsExists; infer_instance

/-- `os.path.dirname` for POSIX paths: the prefix up to the last separator,
with trailing separators stripped unless the result is all separators. -/
def pyDirname (p : String) : String :=
  let head := (p.data.reverse.dropWhile (fun c => c ≠ '/')).reverse
  if head ≠ [] ∧ head.any (fun c => c ≠ '/') then
    String.mk ((head.reverse.dropWhile (fun c => c = '/')).reverse)
  else String.mk head

/-- Python value of an `Optional[str]` parameter. -/
def optToVal (o : Option String) : Val := o

/-- Python `x or y` on two optional-string values. -/
def pyOr (x y : Val) : Val := if valTruthy x then x else y

/-- `self._config[k]`: raises `KeyError` when absent. -/
def bracket (c : Config) (k : String) : Except PyErr Val :=
  match lookupC c k with
  | some v => .ok v
  | none => .error .keyError

/-- Using a config value where `os.path` needs `str`: Python `None` raises
`TypeError`. -/
def asStr : Val → Except PyErr String
  | some s => .ok s
  | none => .error .typeError

/-- `get_input_gherkin_file_path`: ensures only the parent directory. -/
def get_input_gherkin_file_path (m : ConfigManager) (fs : FS) :
    Except PyErr (String × FS) :=
  match bracket m._config "INPUT_GHERKIN_FILE_PATH" with
  | .error e => .error e
  | .ok v =>
    match asStr v with
    | .error e => .error e
    | .ok path =>
      if fsExists path fs then .ok (path, fs)
      else
        let base_path := pyDirname path
        if base_path ≠ "" ∧ ¬fsExists base_path fs then
          match makedirs base_path fs with
          | .error e => .error e
          | .ok fs2 => .ok (path, fs2)
        else .ok (path, fs)

/-- `get_tmp_gherkin_path`. -/
def get_tmp_gherkin_path (m : ConfigManager) (fs : FS) :
    Except PyErr (String × FS) :=
  match bracket m._config "TMP_GHERKIN_PATH" with
  | .error e => .error e
  | .ok v =>
    match asStr v with
    | .error e => .error e
    | .ok path =>
      if fsExists path fs then .ok (path, fs)
      else
        match makedirs path fs with
        | .error e => .error e
        | .ok fs2 => .ok (path, fs2)

/-- `get_junit_xml_base_path`. -/
def get_junit_xml_base_path (m : ConfigManager) (fs : FS) :
    Except PyErr (String × FS) :=
  match bracket m._config "JUNIT_XML_BASE_PATH" with
  | .error e => .error e
  | .ok v =>
    match asStr v with
    | .error e => .error e
    | .ok path =>
      if fsExists path fs then .ok (path, fs)
      else
        match makedirs path fs with
        | .error e => .error e
        | .ok fs2 => .ok (path, fs2)

/-- `get_test_data_path`. -/
def get_test_data_path (m : ConfigManager) (fs : FS) :
    Except PyErr (String × FS) :=
  match bracket m._config "TEST_DATA_PATH" with
  | .error e => .error e
  | .ok v =>
    match asStr v with
    | .error e => .error e
    | .ok path =>
      if fsExists path fs then .ok (path, fs)
      else
        match makedirs path fs with
        | .error e => .error e
        | .ok fs2 => .ok (path, fs2)

/-- `get_source_log_folder_path(test_id)`. -/
def get_source_log_folder_path (m : ConfigManager) (test_id : Option String)
    (fs : FS) : Except PyErr (String × FS) :=
  match bracket m._config "SOURCE_LOG_FOLDER_PATH" with
  | .error e => .error e
  | .ok v =>
    match asStr v with
    | .error e => .error e
    | .ok base =>
      match asStr (pyOr (optToVal test_id) m._default_test_id) with
      | .error e => .error e
      | .ok tids =>
        let path := pyJoin base tids
        if fsExists path fs then .ok (path, fs)
        else
          match makedirs path fs with
          | .error e => .error e
          | .ok fs2 => .ok (path, fs2)

/-- `get_proof_path(test_id)`: creates the `screenshots` and `videos`
subdirectories when the per-test folder is absent. -/
def get_proof_path (m : ConfigManager) (test_id : Option String) (fs : FS) :
    Except PyErr (String × FS) :=
  match bracket m._config "SCREEN_SHOT_PATH" with
  | .error e => .error e
  | .ok v =>
    match asStr v with
    | .error e => .error e
    | .ok base_path =>
      match asStr (pyOr (optToVal test_id) m._default_test_id) with
      | .error e => .error e
      | .ok tids =>
        let path := pyJoin base_path tids
        if fsExists path fs then .ok (path, fs)
        else
          match makedirs (pyJoin path "screenshots") fs with
          | .error e => .error e
          | .ok fs2 =>
            match makedirs (pyJoin path "videos") fs2 with
            | .error e => .error e
            | .ok fs3 => .ok (path, fs3)

/-- `get_project_temp_path(test_id)`. -/
def get_project_temp_path (m : ConfigManager) (test_id : Option String)
    (fs : FS) : Except PyErr (String × FS) :=
  match bracket m._config "PROJECT_TEMP_PATH" with
  | .error e => .error e
  | .ok v =>
    match asStr v with
    | .error e => .error e
    | .ok base_path =>
      match asStr (pyOr (optToVal test_id) m._default_test_id) with
      | .error e => .error e
      | .ok tids =>
        let path := pyJoin base_path tids
        if fsExists path fs then .ok (path, fs)
        else
          match makedirs path fs with
          | .error e => .error e
          | .ok fs2 => .ok (path, fs2)

/-- The seven path accessors with provisioning side effects. -/
inductive PathAccessor
  | inputGherkin
  | tmpGherkin
  | junitXml
  | testData
  | sourceLog (test_id : Option String)
  | proof (test_id : Option String)
  | temp (test_id : Option String)
deriving DecidableEq, Repr

/-- Dispatch a path accessor. -/
def runPathAccessor : PathAccessor → ConfigManager → FS → Except PyErr (String × FS)
  | .inputGherkin, m, fs => get_input_gherkin_file_path m fs
  | .tmpGherkin, m, fs => get_tmp_gherkin_path m fs
  | .junitXml, m, fs => get_junit_xml_base_path m fs
  | .testData, m, fs => get_test_data_path m fs
  | .sourceLog t, m, fs => get_source_log_folder_path m t fs
  | .proof t, m, fs => get_proof_path m t fs
  | .temp t, m, fs => get_project_temp_path m t fs

/-- The condition under which `_check_llm_config` passes: either the
name-and-key pair is fully (truthily) set and no key of the file pair is set,
or the name-and-key pair is not fully set and the file pair is fully set. -/
def llmAuthOk (c : Config) : Bool :=
  let p1 := valTruthy (pyGet c "LLM_MODEL_NAME") && valTruthy (pyGet c "LLM_MODEL_API_KEY")
  let f := valTruthy (pyGet c "AGENTS_LLM_CONFIG_FILE")
  let r := valTruthy (pyGet c "AGENTS_LLM_CONFIG_FILE_REF_KEY")
  (p1 && !f && !r) || (!p1 && (f && r))

/-- The keys read by bracket access in the typed and path accessors of
`BaseConfigManager`, plus `DEFAULT_TEST_ID` (read with a `.get` default during
construction and defaulted by finalization). -/
def accessorKeys : List String :=
  ["MODE", "PROJECT_SOURCE_ROOT", "DEFAULT_TEST_ID", "DONT_CLOSE_BROWSER", "HEADLESS",
   "RECORD_VIDEO", "TAKE_SCREENSHOTS", "BROWSER_TYPE", "CAPTURE_NETWORK", "HF_HOME",
   "INPUT_GHERKIN_FILE_PATH", "TMP_GHERKIN_PATH", "JUNIT_XML_BASE_PATH",
   "SOURCE_LOG_FOLDER_PATH", "TEST_DATA_PATH", "SCREEN_SHOT_PATH", "PROJECT_TEMP_PATH",
   "TOKEN_VERBOSE", "BROWSER_RESOLUTION", "RUN_DEVICE", "LOAD_EXTRA_TOOLS", "LOCALE",
   "TIMEZONE", "GEOLOCATION", "COLOR_SCHEME", "GEO_PROVIDER", "GEO_API_KEY"]

/-- A successfully constructed manager used as the C6 witness instance. -/
def mExC6 : ConfigManager :=
  match (construct [("AGENTS_LLM_CONFIG_FILE", some "cf"),
      ("AGENTS_LLM_CONFIG_FILE_REF_KEY", some "rk")]
    ⟨none, none, none, none, none, none⟩ [] [] true).fst with
  | .ok m => m
  | _ => ⟨[], none⟩

/-- The seven path-valued keys and their fixed relative suffixes under the
project source root. -/
def pathKeyPairs : List (String × String) :=
  [("INPUT_GHERKIN_FILE_PATH", "input/test.feature"),
   ("JUNIT_XML_BASE_PATH", "output"),
   ("TEST_DATA_PATH", "test_data"),
   ("SCREEN_SHOT_PATH", "proofs"),
   ("PROJECT_TEMP_PATH", "temp"),
   ("SOURCE_LOG_FOLDER_PATH", "log_files"),
   ("TMP_GHERKIN_PATH", "gherkin_files")]

/-- The finalization of a merged mapping holding only
`PROJECT_SOURCE_ROOT = "/tmp/proj"`, used as the C8 witness instance. -/
def finExC8 : Config :=
  match finalizeDefaults [("PROJECT_SOURCE_ROOT", some "/tmp/proj")] with
  | .ok f => f
  | .error _ => []

/-- The six keys overridable simultaneously by CLI flag, environment variable
and base mapping. -/
inductive CliKey
  | inputFile
  | outputPath
  | testDataPath
  | projectBase
  | llmModel
  | llmModelApiKey
deriving DecidableEq, Repr

/-- The canonical configuration key of a CLI flag. -/
def cliKeyName : CliKey → String
  | .inputFile => "INPUT_GHERKIN_FILE_PATH"
  | .outputPath => "JUNIT_XML_BASE_PATH"
  | .testDataPath => "TEST_DATA_PATH"
  | .projectBase => "PROJECT_SOURCE_ROOT"
  | .llmModel => "LLM_MODEL_NAME"
  | .llmModelApiKey => "LLM_MODEL_API_KEY"

/-- The argparse value of a CLI flag. -/
def cliVal : CliKey → Args → Option String
  | .inputFile, a => a.input_file
  | .outputPath, a => a.output_path
  | .testDataPath, a => a.test_data_path
  | .projectBase, a => a.project_base
  | .llmModel, a => a.llm_model
  | .llmModelApiKey, a => a.llm_model_api_key

/-- The computed default a CLI-overridable key receives when no source
supplies it (`none`: the two LLM keys are never defaulted and stay absent). -/
def cliDefault : CliKey → String → Option Val
  | .inputFile, r => some (some (pyJoin r "input/test.feature"))
  | .outputPath, r => some (some (pyJoin r "output"))
  | .testDataPath, r => some (some (pyJoin r "test_data"))
  | .projectBase, r => some (some r)
  | .llmModel, _ => none
  | .llmModelApiKey, _ => none

/-- The precedence law for a CLI-overridable key: a truthy CLI flag wins,
else the environment variable, else the base-mapping entry, else the
computed default. -/
def expectedResolved (ck : CliKey) (a : Args) (e : Env) (base : Config)
    (r : String) : Option Val :=
  if optTruthy (cliVal ck a) then some (some ((cliVal ck a).getD ""))
  else
    match envLookup e (cliKeyName ck) with
    | some v => some (some v)
    | none =>
      match lookupC base (cliKeyName ck) with
      | some v => some v
      | none => cliDefault ck r

/-- The manager constructed for the C3 witness: base mapping supplies the
file-pair auth, the environment supplies `TEST_DATA_PATH`, no CLI flags. -/
def mExC3 : ConfigManager :=
  match (construct
      [("AGENTS_LLM_CONFIG_FILE", some "cf"), ("AGENTS_LLM_CONFIG_FILE_REF_KEY", some "rk")]
      ⟨none, none, none, none, none, none⟩ [] [("TEST_DATA_PATH", "/envdata")]
      false).fst with
  | .ok m => m
  | _ => ⟨[], none⟩

-- Theorems ---------------------------------------------------------------------

theorem lookupC_setC (c : Config) (k : String) (v : Val) (j : String) :
    lookupC (setC c k v) j = if k = j then some v else lookupC c j := by
  induction c with
  | nil => simp [setC, lookupC]
  | cons kv c ih =>
    obtain ⟨k', v'⟩ := kv
    by_cases hk : k' = k
    · subst hk
      by_cases hj : k' = j
      · subst hj; simp [setC, lookupC]
      · simp [setC, lookupC, hj]
    · by_cases hj : k' = j
      · subst hj
        have hkj : ¬k = k' := fun h => hk h.symm
        simp [setC, lookupC, hk, hkj]
      · simp [setC, lookupC, hk, hj, ih]

theorem lookupC_append (c d : Config) (j : String) :
    lookupC (c ++ d) j =
      match lookupC c j with
      | some v => some v
      | none => lookupC d j := by
  induction c with
  | nil => simp [lookupC]
  | cons kv c ih =>
    obtain ⟨k', v'⟩ := kv
    by_cases hj : k' = j
    · simp [lookupC, hj]
    · simp [lookupC, hj, ih]

theorem lookupC_setdC (c : Config) (k : String) (v : Val) (j : String) :
    lookupC (setdC c k v) j =
      if k = j then
        match lookupC c k with
        | some w => some w
        | none => some v
      else lookupC c j := by
  unfold setdC
  cases hc : lookupC c k with
  | some w =>
    by_cases hj : k = j
    · subst hj; simp [hc]
    · simp [hj]
  | none =>
    rw [lookupC_append]
    by_cases hj : k = j
    · subst hj
      simp [hc, lookupC]
    · cases hcj : lookupC c j with
      | some w => simp [hj]
      | none => simp [hj, lookupC, fun h : k = j => hj h]

theorem lookupC_updateC (c d : Config) (j : String) :
    lookupC (updateC c d) j =
      match lookupLastC d j with
      | some v => some v
      | none => lookupC c j := by
  induction d generalizing c with
  | nil => simp [updateC, lookupLastC]
  | cons kv d ih =>
    obtain ⟨k, v⟩ := kv
    show lookupC (updateC (setC c k v) d) j = _
    rw [ih]
    cases hd : lookupLastC d j with
    | some w => simp [lookupLastC, hd]
    | none =>
      simp only [lookupLastC, hd, lookupC_setC]
      by_cases hk : k = j <;> simp [hk]

theorem envLookup_setE (e : Env) (k v : String) (j : String) :
    envLookup (setE e k v) j = if k = j then some v else envLookup e j := rfl

theorem envLookup_applyWrites (ps : List (String × String)) (e : Env) (j : String) :
    envLookup (applyWrites ps e) j =
      match lookupLastE ps j with
      | some v => some v
      | none => envLookup e j := by
  induction ps generalizing e with
  | nil => simp [applyWrites, lookupLastE]
  | cons kv ps ih =>
    obtain ⟨k, v⟩ := kv
    show envLookup (applyWrites ps (setE e k v)) j = _
    rw [ih]
    cases hp : lookupLastE ps j with
    | some w => simp [lookupLastE, hp]
    | none =>
      simp only [lookupLastE, hp, envLookup_setE]
      by_cases hk : k = j <;> simp [hk]

theorem envLookup_condSet (b : Bool) (e : Env) (k v j : String) :
    envLookup (if b then setE e k v else e) j =
      if k = j ∧ b then some v else envLookup e j := by
  cases b <;> simp [envLookup_setE]

theorem envLookup_applyArgs (a : Args) (e : Env) (j : String) :
    envLookup (applyArgs a e) j =
      match argWrite a j with
      | some v => some v
      | none => envLookup e j := by
  unfold applyArgs argWrite
  rw [envLookup_condSet, envLookup_condSet, envLookup_condSet, envLookup_condSet,
    envLookup_condSet, envLookup_condSet]
  split_ifs <;> rfl

theorem lookupC_mergeKeys (ks : List String) (c : Config) (e : Env) (j : String) :
    lookupC (mergeKeys ks c e) j =
      if j ∈ ks then
        match envLookup e j with
        | some v => some (some v)
        | none => lookupC c j
      else lookupC c j := by
  induction ks generalizing c with
  | nil => simp [mergeKeys]
  | cons k ks ih =>
    show lookupC (mergeKeys ks
      (match envLookup e k with
       | some v => setC c k (some v)
       | none => c) e) j = _
    rw [ih]
    by_cases hjk : j = k
    · subst hjk
      by_cases hj : j ∈ ks
      · cases he : envLookup e j with
        | some v => simp [hj, he, List.mem_cons]
        | none => simp [hj, he, List.mem_cons]
      · cases he : envLookup e j with
        | some v => simp [hj, he, List.mem_cons, lookupC_setC]
        | none => simp [hj, he, List.mem_cons]
    · have hkj : ¬k = j := fun h => hjk h.symm
      have hmem : (j ∈ k :: ks) ↔ (j ∈ ks) := by
        simp [List.mem_cons, hjk]
      cases he : envLookup e k with
      | some v =>
        have hset : lookupC (setC c k (some v)) j = lookupC c j := by
          rw [lookupC_setC, if_neg hkj]
        simp only [he]
        rw [hset]
        by_cases hj : j ∈ ks <;> simp [hj, hmem]
      | none =>
        simp only [he]
        by_cases hj : j ∈ ks <;> simp [hj, hmem]

theorem lookupC_setdFold (ps : List (String × Val)) (c : Config) (j : String) :
    lookupC (ps.foldl (fun acc kv => setdC acc kv.1 kv.2) c) j =
      match lookupC c j with
      | some v => some v
      | none => lookupFirst ps j := by
  induction ps generalizing c with
  | nil => cases h : lookupC c j <;> simp [lookupFirst, h]
  | cons kv ps ih =>
    obtain ⟨k, v⟩ := kv
    show lookupC (ps.foldl _ (setdC c k v)) j = _
    rw [ih, lookupC_setdC]
    by_cases hk : k = j
    · subst hk
      cases h : lookupC c k <;> simp [lookupFirst, h]
    · cases h : lookupC c j <;> simp [lookupFirst, h, hk]

theorem rootVal_setdC_ne (c : Config) (k : String) (v : Val)
    (hk : k ≠ "PROJECT_SOURCE_ROOT") :
    rootVal (setdC c k v) = rootVal c := by
  unfold rootVal pyGetD
  rw [lookupC_setdC]
  simp [hk]

theorem finalizeDefaults_ok_root (c : Config) (f : Config)
    (hok : finalizeDefaults c = .ok f) : ∃ r, rootVal c = some r := by
  simp only [finalizeDefaults] at hok
  rw [rootVal_setdC_ne _ _ _ (by decide), rootVal_setdC_ne _ _ _ (by decide)] at hok
  cases hroot : rootVal c with
  | none => rw [hroot] at hok; exact absurd hok (by simp)
  | some r => exact ⟨r, rfl⟩

theorem finalizeDefaults_ok_of_root (c : Config) (r : String)
    (hr : rootVal c = some r) : ∃ f, finalizeDefaults c = .ok f := by
  simp only [finalizeDefaults]
  rw [rootVal_setdC_ne _ _ _ (by decide), rootVal_setdC_ne _ _ _ (by decide), hr]
  exact ⟨_, rfl⟩

/-- Where every key of the finalized mapping comes from: a key present after
merging keeps its merged value; an absent key receives `finDefault`. -/
theorem finalize_lookup (c : Config) (r : String) (f : Config) (j : String)
    (hr : rootVal c = some r) (hok : finalizeDefaults c = .ok f) :
    lookupC f j =
      match lookupC c j with
      | some v => some v
      | none => finDefault j r := by
  simp only [finalizeDefaults] at hok
  rw [rootVal_setdC_ne _ _ _ (by decide), rootVal_setdC_ne _ _ _ (by decide), hr] at hok
  have hf := (Except.ok.injEq _ _).mp hok
  subst hf
  rw [lookupC_setdFold, lookupC_setC, lookupC_setdC, lookupC_setdC]
  by_cases hpsr : j = "PROJECT_SOURCE_ROOT"
  · subst hpsr
    simp only [if_pos rfl]
    cases hc : lookupC c "PROJECT_SOURCE_ROOT" with
    | some v =>
      unfold rootVal pyGetD at hr
      rw [hc] at hr
      subst hr
      simp [finDefault, hc]
    | none => simp [finDefault, hc]
  · have h1 : ¬("PROJECT_SOURCE_ROOT" = j) := fun h => hpsr h.symm
    by_cases hdti : j = "DEFAULT_TEST_ID"
    · subst hdti
      have h2 : ¬("MODE" = "DEFAULT_TEST_ID") := by decide
      cases hc : lookupC c "DEFAULT_TEST_ID" with
      | some v => simp [h1, h2, hc, finDefault]
      | none => simp [h1, h2, hc, finDefault]
    · have h2 : ¬("DEFAULT_TEST_ID" = j) := fun h => hdti h.symm
      by_cases hmode : j = "MODE"
      · subst hmode
        cases hc : lookupC c "MODE" with
        | some v => simp [h1, h2, hc, finDefault, lookupC_setdC]
        | none => simp [h1, h2, hc, finDefault, lookupC_setdC]
      · have h3 : ¬("MODE" = j) := fun h => hmode h.symm
        cases hc : lookupC c j with
        | some v => simp [h1, h2, h3, hc, finDefault, hmode, hdti, hpsr, lookupC_setdC]
        | none => simp [h1, h2, h3, hc, finDefault, hmode, hdti, hpsr, lookupC_setdC]

theorem argWrite_is_test_env (a : Args) : argWrite a "IS_TEST_ENV" = none := by
  simp [argWrite]

theorem isTestEnv_applyArgs (a : Args) (e : Env) :
    isTestEnv (applyArgs a e) = isTestEnv e := by
  unfold isTestEnv
  rw [envLookup_applyArgs, argWrite_is_test_env]

theorem envLookup_prepEnv (a : Args) (d : List (String × String)) (e : Env) (j : String) :
    envLookup (prepEnv a d e) j =
      match argWrite a j with
      | some v => some v
      | none =>
        if isTestEnv e then envLookup e j
        else
          match lookupLastE d j with
          | some w => some w
          | none => envLookup e j := by
  unfold prepEnv applyDotenvIf
  rw [envLookup_applyArgs]
  cases haw : argWrite a j with
  | some v => simp
  | none =>
    by_cases ht : isTestEnv e
    · simp [ht]
    · simp [ht, envLookup_applyWrites]

theorem isTestEnv_prepEnv_of (a : Args) (d : List (String × String)) (e : Env)
    (h : isTestEnv e = true) : isTestEnv (prepEnv a d e) = true := by
  unfold prepEnv applyDotenvIf
  rw [isTestEnv_applyArgs]
  simp [h]

theorem prep_idem (a : Args) (d : List (String × String)) (e : Env) (j : String) :
    envLookup (prepEnv a d (prepEnv a d e)) j = envLookup (prepEnv a d e) j := by
  rw [envLookup_prepEnv a d (prepEnv a d e) j]
  cases haw : argWrite a j with
  | some v =>
    rw [envLookup_prepEnv, haw]
  | none =>
    by_cases htF : isTestEnv (prepEnv a d e)
    · simp [htF]
    · simp only [htF, if_false, Bool.false_eq_true, ite_false]
      cases hd : lookupLastE d j with
      | none => simp
      | some w =>
        simp only []
        rw [envLookup_prepEnv, haw]
        by_cases hte : isTestEnv e
        · exact absurd (isTestEnv_prepEnv_of a d e hte) htF
        · simp [hte, hd]

theorem mergeKeys_congr (ks : List String) (c : Config) (e1 e2 : Env)
    (h : ∀ j, envLookup e1 j = envLookup e2 j) :
    mergeKeys ks c e1 = mergeKeys ks c e2 := by
  induction ks generalizing c with
  | nil => rfl
  | cons k ks ih =>
    show mergeKeys ks
        (match envLookup e1 k with
         | some v => setC c k (some v)
         | none => c) e1 = mergeKeys ks
        (match envLookup e2 k with
         | some v => setC c k (some v)
         | none => c) e2
    rw [h k]
    exact ih _

/-- The merged mapping is insensitive to replaying the construction-time
environment mutation: constructing from an environment already prepared once
produces the same merged mapping as constructing from the original one. -/
theorem mergedConfig_prep (base : Config) (a : Args) (d : List (String × String))
    (e : Env) (ig : Bool) :
    mergedConfig base a d (prepEnv a d e) ig = mergedConfig base a d e ig := by
  unfold mergedConfig
  cases ig with
  | true => rfl
  | false =>
    simp only [Bool.false_eq_true, if_false]
    exact mergeKeys_congr _ _ _ _ (prep_idem a d e)

theorem construct_fst_prep (base : Config) (a : Args) (d : List (String × String))
    (e : Env) (ig : Bool) :
    (construct base a d (prepEnv a d e) ig).fst = (construct base a d e ig).fst := by
  simp only [construct]
  rw [mergedConfig_prep]
  cases check_llm_config (mergedConfig base a d e ig) with
  | error n => rfl
  | ok u =>
    cases finalizeDefaults (mergedConfig base a d e ig) with
    | error p => rfl
    | ok f => rfl

theorem string_eq_empty_of_data (p : String) (h : p.data = []) : p = "" := by
  cases p with
  | mk d => simp at h; simp [h]

theorem stringMk_eq_empty_iff (l : List Char) : (String.mk l = "") ↔ l = [] := by
  constructor
  · intro h
    have := congrArg String.data h
    simpa using this
  · intro h
    subst h
    rfl

theorem splitSlash_ne_nil (cs : List Char) : splitSlash cs ≠ [] := by
  induction cs with
  | nil => simp [splitSlash]
  | cons c cs ih =>
    unfold splitSlash
    cases h : splitSlash cs with
    | nil => exact absurd h ih
    | cons g gs => by_cases hc : c = '/' <;> simp [hc]

theorem splitSlash_no_slash (cs : List Char) (h : ('/') ∉ cs) : splitSlash cs = [cs] := by
  induction cs with
  | nil => rfl
  | cons c cs ih =>
    have hc : c ≠ '/' := fun hh => h (hh ▸ List.mem_cons_self c cs)
    have ht : ('/') ∉ cs := fun hh => h (List.mem_cons_of_mem _ hh)
    simp [splitSlash, ih ht, hc]

theorem splitSlash_append (xs ys : List Char) :
    splitSlash (xs ++ ys) = combine (splitSlash xs) (splitSlash ys) := by
  induction xs with
  | nil =>
    simp only [List.nil_append]
    cases hy : splitSlash ys with
    | nil => exact absurd hy (splitSlash_ne_nil ys)
    | cons h hs => simp [splitSlash, combine]
  | cons c xs ih =>
    show splitSlash (c :: (xs ++ ys)) = combine (splitSlash (c :: xs)) (splitSlash ys)
    cases hx : splitSlash xs with
    | nil => exact absurd hx (splitSlash_ne_nil xs)
    | cons g gs =>
      cases hy : splitSlash ys with
      | nil => exact absurd hy (splitSlash_ne_nil ys)
      | cons h hs =>
        rw [hx, hy] at ih
        simp only [splitSlash, ih, hx]
        cases gs with
        | nil => by_cases hc : c = '/' <;> simp [hc, combine]
        | cons g2 gs2 => by_cases hc : c = '/' <;> simp [hc, combine]

theorem combine_nil_cons (gs hs : List (List Char)) (h : gs ≠ []) :
    combine gs ([] :: hs) = gs ++ hs := by
  induction gs with
  | nil => exact absurd rfl h
  | cons g gs2 ih =>
    cases gs2 with
    | nil => simp [combine]
    | cons g2 gs3 =>
      have := ih (by simp)
      simp [combine, this]

theorem comps_empty : comps "" = [] := rfl

theorem comps_ne_nil (p : String) (h : p ≠ "") : comps p ≠ [] := by
  unfold comps
  cases hd : p.data with
  | nil => exact absurd (string_eq_empty_of_data p hd) h
  | cons c cs =>
    by_cases hc : c = '/'
    · simp [hd, hc]
    · cases hs : splitSlash cs with
      | nil => exact absurd hs (splitSlash_ne_nil cs)
      | cons g gs =>
        simp [splitSlash, hs, hc, stringMk_eq_empty_iff]

theorem comps_no_slash (b : String) (hb : b ≠ "") (hslash : ('/') ∉ b.data) :
    comps b = [b] := by
  unfold comps
  have hbdata : b.data ≠ [] := fun hh => hb (string_eq_empty_of_data b hh)
  have hbhead : ¬(b.data.head? = some '/') := by
    cases hbd : b.data with
    | nil => exact absurd hbd hbdata
    | cons c cs =>
      have hc : c ≠ '/' := fun hh => hslash (by rw [hbd, hh]; exact List.mem_cons_self _ _)
      simp [hc]
  rw [if_neg hbhead, splitSlash_no_slash b.data hslash]
  simp [stringMk_eq_empty_iff, hbdata]

theorem comps_join (p b : String) (hb : b ≠ "") (hslash : ('/') ∉ b.data) :
    comps (pyJoin p b) = comps p ++ [b] := by
  have hbdata : b.data ≠ [] := fun hh => hb (string_eq_empty_of_data b hh)
  have hbhead : ¬(b.data.head? = some '/') := by
    cases hbd : b.data with
    | nil => exact absurd hbd hbdata
    | cons c cs =>
      have hc : c ≠ '/' := fun hh => hslash (by rw [hbd, hh]; exact List.mem_cons_self _ _)
      simp [hc]
  unfold pyJoin
  rw [if_neg hbhead]
  by_cases hp0 : p = ""
  · subst hp0
    rw [if_pos (Or.inl rfl)]
    have he : ("" : String) ++ b = b := by
      apply String.ext
      simp [String.data_append]
    rw [he, comps_no_slash b hb hslash, comps_empty]
    rfl
  · have hpd : p.data ≠ [] := fun hh => hp0 (string_eq_empty_of_data p hh)
    by_cases hpl : p.data.getLast? = some '/'
    · rw [if_pos (Or.inr hpl)]
      obtain ⟨ys, hys⟩ : ∃ ys, p.data = ys ++ ['/'] := by
        refine ⟨p.data.dropLast, ?_⟩
        have h2 : p.data.getLast hpd = '/' := by
          have h3 := List.getLast?_eq_getLast p.data hpd
          rw [h3] at hpl
          exact Option.some_inj.mp hpl
        conv_rhs => rw [← h2]
        rw [List.dropLast_append_getLast hpd]
      unfold comps
      have hdapp : (p ++ b).data = ys ++ ('/' :: b.data) := by
        rw [String.data_append, hys, List.append_assoc]
        rfl
      have hshead : (p ++ b).data.head? = p.data.head? := by
        rw [String.data_append]
        exact List.head?_append_of_ne_nil _ hpd
      rw [hdapp]
      have hsplit1 : splitSlash (ys ++ ('/' :: b.data)) = splitSlash ys ++ [b.data] := by
        rw [splitSlash_append]
        show combine (splitSlash ys) (splitSlash ('/' :: b.data)) = _
        have : splitSlash ('/' :: b.data) = [] :: splitSlash b.data := by
          cases hbs : splitSlash b.data with
          | nil => exact absurd hbs (splitSlash_ne_nil b.data)
          | cons g gs => simp [splitSlash, hbs]
        rw [this, splitSlash_no_slash b.data hslash,
          combine_nil_cons _ _ (splitSlash_ne_nil ys)]
      have hsplit2 : splitSlash p.data = splitSlash ys ++ [[]] := by
        rw [hys, splitSlash_append]
        show combine (splitSlash ys) (splitSlash ['/']) = _
        have : splitSlash ['/'] = [[], []] := rfl
        rw [this, combine_nil_cons _ _ (splitSlash_ne_nil ys)]
      rw [hsplit1, hsplit2]
      have hmark : (ys ++ ('/' :: b.data)).head? = p.data.head? := by
        rw [hys]
        cases ys with
        | nil => rfl
        | cons y ys2 => rfl
      rw [hmark]
      simp only [List.map_append, List.filter_append, List.map_cons, List.map_nil,
        List.filter_cons, List.filter_nil]
      have hbkeep : (String.mk b.data ≠ "") :=
        fun hh => hbdata ((stringMk_eq_empty_iff b.data).mp hh)
      have hmkb : String.mk b.data = b := rfl
      by_cases hhd : p.data.head? = some '/' <;>
        simp [hhd, hbkeep, hmkb, stringMk_eq_empty_iff]
    · rw [if_neg (by
        intro hor
        cases hor with
        | inl h1 => exact hp0 h1
        | inr h2 => exact hpl h2)]
      unfold comps
      have hdapp : (p ++ "/" ++ b).data = p.data ++ ('/' :: b.data) := by
        rw [String.data_append, String.data_append, List.append_assoc]
        rfl
      rw [hdapp]
      have hsplit1 : splitSlash (p.data ++ ('/' :: b.data)) =
          splitSlash p.data ++ [b.data] := by
        rw [splitSlash_append]
        have : splitSlash ('/' :: b.data) = [] :: splitSlash b.data := by
          cases hbs : splitSlash b.data with
          | nil => exact absurd hbs (splitSlash_ne_nil b.data)
          | cons g gs => simp [splitSlash, hbs]
        rw [this, splitSlash_no_slash b.data hslash,
          combine_nil_cons _ _ (splitSlash_ne_nil p.data)]
      rw [hsplit1]
      have hmark : (p.data ++ ('/' :: b.data)).head? = p.data.head? :=
        List.head?_append_of_ne_nil _ hpd
      rw [hmark]
      simp only [List.map_append, List.filter_append, List.map_cons, List.map_nil,
        List.filter_cons, List.filter_nil]
      have hbkeep : (String.mk b.data ≠ "") :=
        fun hh => hbdata ((stringMk_eq_empty_iff b.data).mp hh)
      have hmkb : String.mk b.data = b := rfl
      by_cases hhd : p.data.head? = some '/' <;>
        simp [hhd, hbkeep, hmkb, stringMk_eq_empty_iff]

theorem self_mem_prefixesNE (xs : List String) (h : xs ≠ []) : xs ∈ prefixesNE xs := by
  induction xs with
  | nil => exact absurd rfl h
  | cons x xs2 ih =>
    cases hxs : xs2 with
    | nil => simp [prefixesNE]
    | cons y ys =>
      subst hxs
      simp only [prefixesNE]
      exact List.mem_cons_of_mem _ (List.mem_map_of_mem _ (ih (by simp)))

theorem self_mem_prefixesNE_append (xs : List String) (y : String) (h : xs ≠ []) :
    xs ∈ prefixesNE (xs ++ [y]) := by
  induction xs with
  | nil => exact absurd rfl h
  | cons x xs2 ih =>
    cases hxs : xs2 with
    | nil => simp [prefixesNE]
    | cons z zs =>
      subst hxs
      simp only [List.cons_append, prefixesNE]
      exact List.mem_cons_of_mem _ (List.mem_map_of_mem _ (ih (by simp)))

theorem makedirs_ok_props (p : String) (fs fs2 : FS) (h : makedirs p fs = .ok fs2) :
    comps p ≠ [] ∧ fs2 = prefixesNE (comps p) ++ fs := by
  simp only [makedirs] at h
  split_ifs at h with h1 h2
  simp only [Except.ok.injEq] at h
  exact ⟨h1, h.symm⟩

theorem makedirs_ok_mem (p : String) (fs fs2 : FS) (h : makedirs p fs = .ok fs2) :
    comps p ∈ fs2 := by
  obtain ⟨h1, h2⟩ := makedirs_ok_props p fs fs2 h
  rw [h2]
  exact List.mem_append_left _ (self_mem_prefixesNE _ h1)

theorem makedirs_ok_mono (p : String) (fs fs2 : FS) (x : List String)
    (h : makedirs p fs = .ok fs2) (hx : x ∈ fs) : x ∈ fs2 := by
  obtain ⟨h1, h2⟩ := makedirs_ok_props p fs fs2 h
  rw [h2]
  exact List.mem_append_right _ hx

theorem makedirs_join_mem (p b : String) (fs fs2 : FS) (hp : p ≠ "")
    (hb : b ≠ "") (hs : ('/') ∉ b.data)
    (h : makedirs (pyJoin p b) fs = .ok fs2) : comps p ∈ fs2 := by
  obtain ⟨h1, h2⟩ := makedirs_ok_props _ fs fs2 h
  rw [h2, comps_join p b hb hs]
  exact List.mem_append_left _ (self_mem_prefixesNE_append _ _ (comps_ne_nil p hp))

theorem provision_simple_idem (path p : String) (fs fs1 : FS)
    (h : (if fsExists path fs then (Except.ok (path, fs) : Except PyErr (String × FS))
          else
            match makedirs path fs with
            | .error e => .error e
            | .ok fs2 => .ok (path, fs2)) = .ok (p, fs1)) :
    (if fsExists path fs1 then (Except.ok (path, fs1) : Except PyErr (String × FS))
     else
       match makedirs path fs1 with
       | .error e => .error e
       | .ok fs2 => .ok (path, fs2)) = .ok (p, fs1) := by
  by_cases hex : fsExists path fs
  · rw [if_pos hex] at h
    simp only [Except.ok.injEq, Prod.mk.injEq] at h
    obtain ⟨h1, h2⟩ := h
    subst h1
    subst h2
    rw [if_pos hex]
  · rw [if_neg hex] at h
    cases hm : makedirs path fs with
    | error e => simp [hm] at h
    | ok fs2 =>
      simp only [hm] at h
      simp only [Except.ok.injEq, Prod.mk.injEq] at h
      obtain ⟨h1, h2⟩ := h
      subst h1
      subst h2
      rw [if_pos (show fsExists path fs2 from makedirs_ok_mem path fs fs2 hm)]

/-- C7 (amended): for every path accessor with provisioning side effects and
every starting filesystem state, if the first call returns a path `p` with
`p` non-empty, then a second call returns the same path, performs no
filesystem mutation, and does not error.  (The original claim, without the
non-emptiness proviso, fails for `get_proof_path` on an empty screenshot base
path and empty test identifier; see the counterexample.) -/
theorem claim_C7_amended (acc : PathAccessor) (m : ConfigManager) (fs fs1 : FS)
    (p : String) (h : runPathAccessor acc m fs = Except.ok (p, fs1)) (hp : p ≠ "") :
    runPathAccessor acc m fs1 = Except.ok (p, fs1) := by
  cases acc with
  | tmpGherkin =>
    simp only [runPathAccessor, get_tmp_gherkin_path] at h ⊢
    cases hb : bracket m._config "TMP_GHERKIN_PATH" with
    | error e => simp [hb] at h
    | ok v =>
      simp only [hb] at h ⊢
      cases ha : asStr v with
      | error e => simp [ha] at h
      | ok path =>
        simp only [ha] at h ⊢
        exact provision_simple_idem path p fs fs1 h
  | junitXml =>
    simp only [runPathAccessor, get_junit_xml_base_path] at h ⊢
    cases hb : bracket m._config "JUNIT_XML_BASE_PATH" with
    | error e => simp [hb] at h
    | ok v =>
      simp only [hb] at h ⊢
      cases ha : asStr v with
      | error e => simp [ha] at h
      | ok path =>
        simp only [ha] at h ⊢
        exact provision_simple_idem path p fs fs1 h
  | testData =>
    simp only [runPathAccessor, get_test_data_path] at h ⊢
    cases hb : bracket m._config "TEST_DATA_PATH" with
    | error e => simp [hb] at h
    | ok v =>
      simp only [hb] at h ⊢
      cases ha : asStr v with
      | error e => simp [ha] at h
      | ok path =>
        simp only [ha] at h ⊢
        exact provision_simple_idem path p fs fs1 h
  | sourceLog t =>
    simp only [runPathAccessor, get_source_log_folder_path] at h ⊢
    cases hb : bracket m._config "SOURCE_LOG_FOLDER_PATH" with
    | error e => simp [hb] at h
    | ok v =>
      simp only [hb] at h ⊢
      cases ha : asStr v with
      | error e => simp [ha] at h
      | ok base =>
        simp only [ha] at h ⊢
        cases ht : asStr (pyOr (optToVal t) m._default_test_id) with
        | error e => simp [ht] at h
        | ok tids =>
          simp only [ht] at h ⊢
          exact provision_simple_idem (pyJoin base tids) p fs fs1 h
  | temp t =>
    simp only [runPathAccessor, get_project_temp_path] at h ⊢
    cases hb : bracket m._config "PROJECT_TEMP_PATH" with
    | error e => simp [hb] at h
    | ok v =>
      simp only [hb] at h ⊢
      cases ha : asStr v with
      | error e => simp [ha] at h
      | ok base_path =>
        simp only [ha] at h ⊢
        cases ht : asStr (pyOr (optToVal t) m._default_test_id) with
        | error e => simp [ht] at h
        | ok tids =>
          simp only [ht] at h ⊢
          exact provision_simple_idem (pyJoin base_path tids) p fs fs1 h
  | inputGherkin =>
    simp only [runPathAccessor, get_input_gherkin_file_path] at h ⊢
    cases hb : bracket m._config "INPUT_GHERKIN_FILE_PATH" with
    | error e => simp [hb] at h
    | ok v =>
      simp only [hb] at h ⊢
      cases ha : asStr v with
      | error e => simp [ha] at h
      | ok path =>
        simp only [ha] at h ⊢
        by_cases hex : fsExists path fs
        · rw [if_pos hex] at h
          simp only [Except.ok.injEq, Prod.mk.injEq] at h
          obtain ⟨h1, h2⟩ := h
          subst h1
          subst h2
          rw [if_pos hex]
        · rw [if_neg hex] at h
          by_cases hbp : (pyDirname path ≠ "" ∧ ¬fsExists (pyDirname path) fs)
          · rw [if_pos hbp] at h
            cases hm : makedirs (pyDirname path) fs with
            | error e => simp [hm] at h
            | ok fs2 =>
              simp only [hm] at h
              simp only [Except.ok.injEq, Prod.mk.injEq] at h
              obtain ⟨h1, h2⟩ := h
              subst h1
              subst h2
              by_cases hex2 : fsExists path fs2
              · rw [if_pos hex2]
              · rw [if_neg hex2]
                have hmem : fsExists (pyDirname path) fs2 :=
                  makedirs_ok_mem _ fs fs2 hm
                rw [if_neg (show ¬(pyDirname path ≠ "" ∧ ¬fsExists (pyDirname path) fs2) from
                  fun hcon => hcon.2 hmem)]
          · rw [if_neg hbp] at h
            simp only [Except.ok.injEq, Prod.mk.injEq] at h
            obtain ⟨h1, h2⟩ := h
            subst h1
            subst h2
            rw [if_neg hex, if_neg hbp]
  | proof t =>
    simp only [runPathAccessor, get_proof_path] at h ⊢
    cases hb : bracket m._config "SCREEN_SHOT_PATH" with
    | error e => simp [hb] at h
    | ok v =>
      simp only [hb] at h ⊢
      cases ha : asStr v with
      | error e => simp [ha] at h
      | ok base_path =>
        simp only [ha] at h ⊢
        cases ht : asStr (pyOr (optToVal t) m._default_test_id) with
        | error e => simp [ht] at h
        | ok tids =>
          simp only [ht] at h ⊢
          by_cases hex : fsExists (pyJoin base_path tids) fs
          · rw [if_pos hex] at h
            simp only [Except.ok.injEq, Prod.mk.injEq] at h
            obtain ⟨h1, h2⟩ := h
            subst h1
            subst h2
            rw [if_pos hex]
          · rw [if_neg hex] at h
            cases hm1 : makedirs (pyJoin (pyJoin base_path tids) "screenshots") fs with
            | error e => simp [hm1] at h
            | ok fs2 =>
              simp only [hm1] at h
              cases hm2 : makedirs (pyJoin (pyJoin base_path tids) "videos") fs2 with
              | error e => simp [hm2] at h
              | ok fs3 =>
                simp only [hm2] at h
                simp only [Except.ok.injEq, Prod.mk.injEq] at h
                obtain ⟨h1, h2⟩ := h
                subst h1
                subst h2
                have hmem2 : comps (pyJoin base_path tids) ∈ fs2 :=
                  makedirs_join_mem _ "screenshots" fs fs2 hp (by decide) (by decide) hm1
                have hmem3 : comps (pyJoin base_path tids) ∈ fs3 :=
                  makedirs_ok_mono _ fs2 fs3 _ hm2 hmem2
                rw [if_pos (show fsExists (pyJoin base_path tids) fs3 from hmem3)]

/-- C7 counterexample: with `SCREEN_SHOT_PATH` stored as the empty string and
an empty default test identifier, the first `get_proof_path` call succeeds
(returning the empty path and creating `screenshots` and `videos`), but the
second call in succession raises `FileExistsError` from `os.makedirs` —
contradicting the claim that the second call never errors. -/
theorem claim_C7_counterexample :
    runPathAccessor (.proof none) ⟨[("SCREEN_SHOT_PATH", some "")], some ""⟩ [] =
      .ok ("", [["videos"], ["screenshots"]]) ∧
    runPathAccessor (.proof none) ⟨[("SCREEN_SHOT_PATH", some "")], some ""⟩
        [["videos"], ["screenshots"]] = .error .fileExists := by
  constructor <;> rfl

/-- Witness for the amended C7 at a concrete accessor, manager and
filesystem. -/
theorem claim_C7_amended_witness :
    runPathAccessor .tmpGherkin
        ⟨[("TMP_GHERKIN_PATH", some "/tmp/gherkin_files")], some "default"⟩
        [[""], ["", "tmp"], ["", "tmp", "gherkin_files"]] =
      Except.ok ("/tmp/gherkin_files", [[""], ["", "tmp"], ["", "tmp", "gherkin_files"]]) :=
  claim_C7_amended .tmpGherkin
    ⟨[("TMP_GHERKIN_PATH", some "/tmp/gherkin_files")], some "default"⟩
    [] [[""], ["", "tmp"], ["", "tmp", "gherkin_files"]] "/tmp/gherkin_files"
    (by rfl) (by decide)

/-- C2 counterexample: setting a test identifier mutates the resolved mapping
(the `DEFAULT_TEST_ID` entry changes), contradicting the claim that the
mapping is left unchanged. -/
theorem claim_C2_counterexample :
    (set_default_test_id ⟨[("DEFAULT_TEST_ID", some "default")], some "default"⟩
        "run42")._config ≠ [("DEFAULT_TEST_ID", some "default")] := by
  decide

/-- C2 (amended): outside construction, the only mapping mutations besides the
registry patch are the test-identifier setters, and they write exactly the
`DEFAULT_TEST_ID` key: every other key of the resolved mapping is unchanged
by `set_default_test_id` and `reset_default_test_id` (pure getters do not
mutate the mapping at all in this embedding). -/
theorem claim_C2_amended (m : ConfigManager) (t : String) (j : String) :
    (lookupC (set_default_test_id m t)._config j =
      if "DEFAULT_TEST_ID" = j then some (some t) else lookupC m._config j) ∧
    (set_default_test_id m t)._default_test_id = some t ∧
    (lookupC (reset_default_test_id m)._config j =
      if "DEFAULT_TEST_ID" = j then some (some "default") else lookupC m._config j) := by
  refine ⟨?_, rfl, ?_⟩ <;>
    simp [set_default_test_id, reset_default_test_id, lookupC_setC]

/-- C4: on an existing shared instance, a second `instance(config_dict)` call
with a supplied mapping patches exactly the supplied keys by unconditional
overwrite (last supplied occurrence wins), leaves every other key unchanged,
and never re-runs validation or finalization — the result is always `ok`,
even when the patched mapping would fail LLM-auth validation from scratch. -/
theorem claim_C4 (s : RegState) (m : ConfigManager) (d : Config) (ig : Bool)
    (a : Args) (dv : List (String × String)) (hm : s.reg = some m) (hd : d ≠ []) :
    instanceOp s (some d) ig a dv =
      (.ok ⟨updateC m._config d, m._default_test_id⟩,
        ⟨some ⟨updateC m._config d, m._default_test_id⟩, s.env⟩) ∧
    ∀ j, lookupC (updateC m._config d) j =
      match lookupLastC d j with
      | some v => some v
      | none => lookupC m._config j := by
  constructor
  · simp [instanceOp, hm]
  · intro j
    exact lookupC_updateC m._config d j

/-- Witness for C4: patching a valid name-and-key instance with a partial
file-pair entry — which would fail validation from scratch — succeeds and
merely overwrites that one key. -/
theorem claim_C4_witness :
    instanceOp
        ⟨some ⟨[("LLM_MODEL_NAME", some "m"), ("LLM_MODEL_API_KEY", some "k")],
          some "default"⟩, []⟩
        (some [("AGENTS_LLM_CONFIG_FILE", some "f")]) false
        ⟨none, none, none, none, none, none⟩ [] =
      (.ok ⟨updateC [("LLM_MODEL_NAME", some "m"), ("LLM_MODEL_API_KEY", some "k")]
          [("AGENTS_LLM_CONFIG_FILE", some "f")], some "default"⟩,
        ⟨some ⟨updateC [("LLM_MODEL_NAME", some "m"), ("LLM_MODEL_API_KEY", some "k")]
          [("AGENTS_LLM_CONFIG_FILE", some "f")], some "default"⟩, []⟩) :=
  (claim_C4
    ⟨some ⟨[("LLM_MODEL_NAME", some "m"), ("LLM_MODEL_API_KEY", some "k")],
      some "default"⟩, []⟩
    ⟨[("LLM_MODEL_NAME", some "m"), ("LLM_MODEL_API_KEY", some "k")], some "default"⟩
    [("AGENTS_LLM_CONFIG_FILE", some "f")] false
    ⟨none, none, none, none, none, none⟩ [] rfl (by decide)).1

/-- C10: on an existing shared instance, calling the registry accessor with
no mapping supplied returns the same instance with state untouched (the merge
path is not taken), while supplying an empty mapping takes the merge path but
changes nothing. -/
theorem claim_C10 (s : RegState) (m : ConfigManager) (ig : Bool) (a : Args)
    (dv : List (String × String)) (hm : s.reg = some m) :
    instanceOp s none ig a dv = (.ok m, s) ∧
    instanceOp s (some []) ig a dv = (.ok m, ⟨some m, s.env⟩) := by
  constructor
  · simp [instanceOp, hm]
  · simp [instanceOp, hm, updateC]

/-- Witness for C10 at a concrete registry state. -/
theorem claim_C10_witness :
    instanceOp ⟨some ⟨[("MODE", some "prod")], some "default"⟩, []⟩ none true
        ⟨none, none, none, none, none, none⟩ [] =
      (.ok ⟨[("MODE", some "prod")], some "default"⟩,
        ⟨some ⟨[("MODE", some "prod")], some "default"⟩, []⟩) :=
  (claim_C10 ⟨some ⟨[("MODE", some "prod")], some "default"⟩, []⟩
    ⟨[("MODE", some "prod")], some "default"⟩ true
    ⟨none, none, none, none, none, none⟩ [] rfl).1

theorem check_llm_boolean (b1 b2 b3 b4 : Bool) :
    (if b1 && b2 && (b3 || b4) then (Except.error 1 : Except Nat Unit)
     else if (!b1 || !b2) && (!b3 || !b4) then Except.error 1
     else Except.ok ()) =
      if b1 && b2 && !b3 && !b4 || !(b1 && b2) && (b3 && b4) then Except.ok ()
      else Except.error 1 := by
  cases b1 <;> cases b2 <;> cases b3 <;> cases b4 <;> rfl

theorem check_llm_config_eq (c : Config) :
    check_llm_config c = if llmAuthOk c then .ok () else .error 1 := by
  simp only [check_llm_config, llmAuthOk]
  exact check_llm_boolean _ _ _ _

/-- C1 (amended): construction exits with code 1 exactly when `llmAuthOk`
fails on the merged mapping — that is, both pairs fully set, or neither pair
fully set, or the name-and-key pair fully set while the file pair is only
partially set all exit; the one asymmetric success case tolerated is a fully
set file pair alongside a partially set name-and-key pair.  When the check
passes and the resolved project source root is not Python `None`,
construction succeeds. -/
theorem claim_C1_amended (base : Config) (a : Args) (dv : List (String × String))
    (e : Env) (ig : Bool) :
    ((construct base a dv e ig).fst = .exit 1 ↔
      llmAuthOk (mergedConfig base a dv e ig) = false) ∧
    (llmAuthOk (mergedConfig base a dv e ig) = true →
      rootVal (mergedConfig base a dv e ig) ≠ none →
      ∃ m, (construct base a dv e ig).fst = .ok m) := by
  have hc := check_llm_config_eq (mergedConfig base a dv e ig)
  constructor
  · constructor
    · intro h
      by_cases hok : llmAuthOk (mergedConfig base a dv e ig)
      · exfalso
        simp only [construct, hc, hok, if_true] at h
        cases hf : finalizeDefaults (mergedConfig base a dv e ig) <;> simp [hf] at h
      · simp only [Bool.not_eq_true] at hok
        exact hok
    · intro h
      simp [construct, hc, h]
  · intro h hroot
    cases hr : rootVal (mergedConfig base a dv e ig) with
    | none => exact absurd hr hroot
    | some r =>
      obtain ⟨f, hf⟩ := finalizeDefaults_ok_of_root _ r hr
      refine ⟨⟨f, pyGetD f "DEFAULT_TEST_ID" (some "default")⟩, ?_⟩
      simp [construct, hc, h, hf]

/-- C1 counterexample: a base mapping in which exactly one pair — the
name-and-key pair — is fully set, while the file pair is only partially set
(`AGENTS_LLM_CONFIG_FILE` present, its ref key absent).  The claim says this
construction succeeds; the code exits with code 1, because the first check
fires on `(name and key) and (file or ref_key)`. -/
theorem claim_C1_counterexample :
    (valTruthy (pyGet [("LLM_MODEL_NAME", some "m"), ("LLM_MODEL_API_KEY", some "k"),
        ("AGENTS_LLM_CONFIG_FILE", some "f")] "LLM_MODEL_NAME") &&
      valTruthy (pyGet [("LLM_MODEL_NAME", some "m"), ("LLM_MODEL_API_KEY", some "k"),
        ("AGENTS_LLM_CONFIG_FILE", some "f")] "LLM_MODEL_API_KEY")) = true ∧
    (valTruthy (pyGet [("LLM_MODEL_NAME", some "m"), ("LLM_MODEL_API_KEY", some "k"),
        ("AGENTS_LLM_CONFIG_FILE", some "f")] "AGENTS_LLM_CONFIG_FILE") &&
      valTruthy (pyGet [("LLM_MODEL_NAME", some "m"), ("LLM_MODEL_API_KEY", some "k"),
        ("AGENTS_LLM_CONFIG_FILE", some "f")] "AGENTS_LLM_CONFIG_FILE_REF_KEY")) = false ∧
    (construct [("LLM_MODEL_NAME", some "m"), ("LLM_MODEL_API_KEY", some "k"),
        ("AGENTS_LLM_CONFIG_FILE", some "f")]
      ⟨none, none, none, none, none, none⟩ [] [] true).fst = .exit 1 := by
  refine ⟨rfl, rfl, rfl⟩

/-- Witness for the amended C1: a fully set file pair alone passes the check
and construction succeeds. -/
theorem claim_C1_amended_witness :
    ∃ m, (construct [("AGENTS_LLM_CONFIG_FILE", some "cf"),
        ("AGENTS_LLM_CONFIG_FILE_REF_KEY", some "rk")]
      ⟨none, none, none, none, none, none⟩ [] [] true).fst = .ok m :=
  (claim_C1_amended [("AGENTS_LLM_CONFIG_FILE", some "cf"),
      ("AGENTS_LLM_CONFIG_FILE_REF_KEY", some "rk")]
    ⟨none, none, none, none, none, none⟩ [] [] true).2 (by decide) (by decide)

theorem construct_snd (base : Config) (a : Args) (dv : List (String × String))
    (e : Env) (ig : Bool) : (construct base a dv e ig).snd = envAfter a dv e ig := by
  simp only [construct]
  cases check_llm_config (mergedConfig base a dv e ig) with
  | error n => rfl
  | ok u =>
    cases finalizeDefaults (mergedConfig base a dv e ig) with
    | error p => rfl
    | ok f => rfl

theorem instanceOp_none_fst (E : Env) (cfg : Option Config) (ig : Bool) (a : Args)
    (dv : List (String × String)) :
    (instanceOp ⟨none, E⟩ cfg ig a dv).fst =
      (construct (match cfg with | some cd => cd | none => []) a dv E ig).fst := by
  simp only [instanceOp]
  cases hc : construct (match cfg with | some cd => cd | none => []) a dv E ig with
  | mk r e2 => cases r <;> simp

theorem instanceOp_none_snd_env (E : Env) (cfg : Option Config) (ig : Bool) (a : Args)
    (dv : List (String × String)) :
    ((instanceOp ⟨none, E⟩ cfg ig a dv).snd).env = envAfter a dv E ig := by
  have hs := construct_snd (match cfg with | some cd => cd | none => []) a dv E ig
  revert hs
  simp only [instanceOp]
  cases construct (match cfg with | some cd => cd | none => []) a dv E ig with
  | mk r e2 =>
    intro hs
    cases r <;> simpa using hs

/-- C5: resetting the registry and calling `instance` again with a fresh
mapping yields exactly the construction a first-ever `instance` call with
that mapping would have produced from the original process environment: no
state is inherited from the previous shared instance or from its
construction-time environment writes (dotenv load and CLI writes), because
replaying those writes is idempotent with respect to the merged mapping. -/
theorem claim_C5 (e0 : Env) (cfg1 : Option Config) (ig1 : Bool) (cfg : Option Config)
    (ig : Bool) (a : Args) (dv : List (String × String)) :
    (instanceOp (reset_instance ((instanceOp ⟨none, e0⟩ cfg1 ig1 a dv).snd))
        cfg ig a dv).fst =
      (instanceOp ⟨none, e0⟩ cfg ig a dv).fst := by
  have h1 : reset_instance ((instanceOp ⟨none, e0⟩ cfg1 ig1 a dv).snd) =
      ⟨none, envAfter a dv e0 ig1⟩ := by
    unfold reset_instance
    rw [instanceOp_none_snd_env]
  rw [h1, instanceOp_none_fst, instanceOp_none_fst]
  cases ig1 with
  | true => rfl
  | false =>
    show (construct _ a dv (prepEnv a dv e0) ig).fst = _
    exact construct_fst_prep _ a dv e0 ig

/-- C6: after any successful construction, every recognized key read by a
typed or path accessor is present in the resolved mapping (supplied or
defaulted), so no accessor ever reads an undefined key. -/
theorem claim_C6 (base : Config) (a : Args) (dv : List (String × String)) (e : Env)
    (ig : Bool) (m : ConfigManager) (e2 : Env)
    (h : construct base a dv e ig = (.ok m, e2)) :
    accessorKeys.all (fun k => (lookupC m._config k).isSome) = true := by
  simp only [construct] at h
  cases hc : check_llm_config (mergedConfig base a dv e ig) with
  | error n => simp [hc] at h
  | ok u =>
    simp only [hc] at h
    cases hf : finalizeDefaults (mergedConfig base a dv e ig) with
    | error p => simp [hf] at h
    | ok f =>
      simp only [hf, Prod.mk.injEq, CResult.ok.injEq] at h
      obtain ⟨hm, he⟩ := h
      have hmc : m._config = f := by rw [← hm]
      obtain ⟨r, hr⟩ := finalizeDefaults_ok_root _ _ hf
      rw [List.all_eq_true]
      intro k hk
      have hl := finalize_lookup (mergedConfig base a dv e ig) r f k hr hf
      rw [hmc, hl]
      cases hck : lookupC (mergedConfig base a dv e ig) k with
      | some v => simp
      | none =>
        simp only []
        fin_cases hk <;> simp [finDefault, lookupFirst, defaultPairs]

/-- Witness for C6 at a concrete successful construction. -/
theorem claim_C6_witness :
    accessorKeys.all (fun k => (lookupC mExC6._config k).isSome) = true :=
  claim_C6 [("AGENTS_LLM_CONFIG_FILE", some "cf"), ("AGENTS_LLM_CONFIG_FILE_REF_KEY", some "rk")]
    ⟨none, none, none, none, none, none⟩ [] [] true mExC6 [] (by rfl)

/-- C8: for every construction whose project source root resolves to a string
`r`, any path-valued key absent after merging is finalized to `r` joined with
that key's fixed relative suffix. -/
theorem claim_C8 (c : Config) (r : String) (f : Config) (k suf : String)
    (hk : (k, suf) ∈ pathKeyPairs) (hr : rootVal c = some r)
    (habs : lookupC c k = none) (hok : finalizeDefaults c = .ok f) :
    lookupC f k = some (some (pyJoin r suf)) := by
  rw [finalize_lookup c r f k hr hok, habs]
  fin_cases hk <;> simp [finDefault, lookupFirst, defaultPairs]

/-- Witness for C8: with `PROJECT_SOURCE_ROOT=/tmp/proj` and no explicit
`TEST_DATA_PATH`, the resolved test-data path is `/tmp/proj/test_data`. -/
theorem claim_C8_witness :
    lookupC finExC8 "TEST_DATA_PATH" = some (some "/tmp/proj/test_data") :=
  (claim_C8 [("PROJECT_SOURCE_ROOT", some "/tmp/proj")] "/tmp/proj" finExC8
    "TEST_DATA_PATH" "test_data" (by decide) (by rfl) (by rfl) (by rfl)).trans
    (by decide)

/-- C9: `get_cdp_config` returns Python `None` whenever the stored
`CDP_ENDPOINT_URL` is falsy — absent, Python `None`, or the empty string —
and the one-entry mapping for any non-empty value; it never raises on an
absent key (it uses `.get`), and finalization never gives `CDP_ENDPOINT_URL`
a default (its finalized value is exactly its merged value). -/
theorem claim_C9 (m : ConfigManager) (c f : Config)
    (hf : finalizeDefaults c = .ok f) :
    (valTruthy (pyGet m._config "CDP_ENDPOINT_URL") = false → get_cdp_config m = none) ∧
    (∀ v : String, pyGet m._config "CDP_ENDPOINT_URL" = some v → v ≠ "" →
      get_cdp_config m = some [("endpoint_url", some v)]) ∧
    lookupC f "CDP_ENDPOINT_URL" = lookupC c "CDP_ENDPOINT_URL" := by
  refine ⟨?_, ?_, ?_⟩
  · intro h
    simp [get_cdp_config, h]
  · intro v hv hne
    simp [get_cdp_config, hv, valTruthy, hne]
  · obtain ⟨r, hr⟩ := finalizeDefaults_ok_root c f hf
    rw [finalize_lookup c r f _ hr hf]
    cases hc : lookupC c "CDP_ENDPOINT_URL" with
    | some v => rfl
    | none => simp [finDefault, lookupFirst, defaultPairs]

/-- Witness for C9: empty-string endpoint gives `None`; a non-empty endpoint
gives the one-entry mapping; in a concrete finalization the key stays
absent. -/
theorem claim_C9_witness :
    get_cdp_config ⟨[("CDP_ENDPOINT_URL", some "")], none⟩ = none ∧
    get_cdp_config ⟨[("CDP_ENDPOINT_URL", some "ws://loc")], none⟩ =
      some [("endpoint_url", some "ws://loc")] ∧
    lookupC finExC8 "CDP_ENDPOINT_URL" = none :=
  ⟨(claim_C9 ⟨[("CDP_ENDPOINT_URL", some "")], none⟩
      [("PROJECT_SOURCE_ROOT", some "/tmp/proj")] finExC8 (by rfl)).1 (by decide),
   (claim_C9 ⟨[("CDP_ENDPOINT_URL", some "ws://loc")], none⟩
      [("PROJECT_SOURCE_ROOT", some "/tmp/proj")] finExC8 (by rfl)).2.1
      "ws://loc" (by rfl) (by decide),
   ((claim_C9 ⟨[], none⟩
      [("PROJECT_SOURCE_ROOT", some "/tmp/proj")] finExC8 (by rfl)).2.2).trans (by rfl)⟩

theorem argWrite_cliKeyName (ck : CliKey) (a : Args) :
    argWrite a (cliKeyName ck) =
      if optTruthy (cliVal ck a) then some ((cliVal ck a).getD "") else none := by
  cases ck <;> simp [argWrite, cliKeyName, cliVal]

/-- C3 (amended): for every CLI-overridable key, with the environment not
ignored and no `.env` file, the resolved value after a successful
construction follows the precedence CLI over environment over base mapping
over computed default — where a CLI flag counts as given only when its value
is non-empty (an empty-string flag value is falsy in Python and is treated
as not given), and the computed default of the two LLM keys is to remain
absent. -/
theorem claim_C3_amended (ck : CliKey) (base : Config) (a : Args) (e : Env)
    (r : String) (m : ConfigManager) (e2 : Env)
    (h : construct base a [] e false = (.ok m, e2))
    (hr : rootVal (mergedConfig base a [] e false) = some r) :
    lookupC m._config (cliKeyName ck) = expectedResolved ck a e base r := by
  simp only [construct] at h
  cases hc : check_llm_config (mergedConfig base a [] e false) with
  | error n => simp [hc] at h
  | ok u =>
    simp only [hc] at h
    cases hf : finalizeDefaults (mergedConfig base a [] e false) with
    | error p => simp [hf] at h
    | ok f =>
      simp only [hf, Prod.mk.injEq, CResult.ok.injEq] at h
      obtain ⟨hm, he⟩ := h
      have hmc : m._config = f := by rw [← hm]
      have hprep : ∀ j, envLookup (prepEnv a [] e) j = envLookup (applyArgs a e) j := by
        intro j
        unfold prepEnv applyDotenvIf
        by_cases ht : isTestEnv e <;> simp [ht, applyWrites]
      have hcm : mergedConfig base a [] e false =
          mergeKeys relevantKeys base (prepEnv a [] e) := rfl
      have hmem : cliKeyName ck ∈ relevantKeys := by cases ck <;> decide
      have hc2 : lookupC (mergedConfig base a [] e false) (cliKeyName ck) =
          match (match argWrite a (cliKeyName ck) with
                 | some v => some v
                 | none => envLookup e (cliKeyName ck)) with
          | some v => some (some v)
          | none => lookupC base (cliKeyName ck) := by
        rw [hcm]
        have := lookupC_mergeKeys relevantKeys base (prepEnv a [] e) (cliKeyName ck)
        rw [if_pos hmem] at this
        rw [this, hprep (cliKeyName ck), envLookup_applyArgs]
      have hfd : finDefault (cliKeyName ck) r = cliDefault ck r := by
        cases ck <;> simp [finDefault, cliKeyName, cliDefault, lookupFirst, defaultPairs]
      rw [hmc, finalize_lookup (mergedConfig base a [] e false) r f (cliKeyName ck) hr hf,
        hc2, argWrite_cliKeyName]
      unfold expectedResolved
      by_cases hcli : optTruthy (cliVal ck a)
      · simp [hcli]
      · simp only [hcli, Bool.false_eq_true, if_false, ite_false]
        cases hen : envLookup e (cliKeyName ck) with
        | some v => simp [hen]
        | none =>
          simp only [hen]
          cases hb : lookupC base (cliKeyName ck) with
          | some w => simp [hb]
          | none => simp [hb, hfd]

/-- C3 counterexample: the `--test-data-path` flag is given but with an empty
string value.  The claim says the resolved value then equals the CLI-supplied
value (the empty string); the code treats a falsy flag as not given, so the
environment value wins instead. -/
theorem claim_C3_counterexample :
    (cliVal .testDataPath ⟨none, none, some "", none, none, none⟩).isSome = true ∧
    (match (construct
        [("AGENTS_LLM_CONFIG_FILE", some "cf"), ("AGENTS_LLM_CONFIG_FILE_REF_KEY", some "rk")]
        ⟨none, none, some "", none, none, none⟩ [] [("TEST_DATA_PATH", "/envdata")]
        false).fst with
      | .ok m => lookupC m._config "TEST_DATA_PATH"
      | _ => none) = some (some "/envdata") ∧
    (some (some "/envdata") : Option Val) ≠ some (some "") := by
  refine ⟨rfl, by decide, by decide⟩

/-- Witness for the amended C3: with no CLI flag, the environment value for
`TEST_DATA_PATH` wins over the absent base entry and the computed default. -/
theorem claim_C3_amended_witness :
    lookupC mExC3._config "TEST_DATA_PATH" = some (some "/envdata") :=
  (claim_C3_amended .testDataPath
    [("AGENTS_LLM_CONFIG_FILE", some "cf"), ("AGENTS_LLM_CONFIG_FILE_REF_KEY", some "rk")]
    ⟨none, none, none, none, none, none⟩ [("TEST_DATA_PATH", "/envdata")] "./opt"
    mExC3 [("TEST_DATA_PATH", "/envdata")] (by rfl) (by rfl)).trans (by decide)
